import Mathlib

/-!
# Verification of the OpenRouter chat service module

Shallow embedding of `src/web/src/services/ai/openrouterService.ts`.

The module has two dispatch functions (`sendChatRequest`,
`sendStreamingChatRequest`), a derived convenience feature
(`generateSuggestions`), and a streaming line decoder (`processLines`
plus the surrounding read loop).  Host primitives used by the code
(`JSON.parse`, JavaScript property access, `String.prototype.trim`,
`String.prototype.split`) are modelled explicitly below; effects are made
visible by returning the list of issued HTTP requests and the list of
callback invocations alongside the result.
-/

/-! ## JavaScript value model

`JsVal` models the values JavaScript expressions in this module can
produce: anything `JSON.parse` returns, plus `undefined` for missing
properties.  Property access on `undefined`/`null` throws a `TypeError`,
modelled as `Except.error ()`.
-/

inductive JsVal where
  | undef
  | jnull
  | bool (b : Bool)
  | num (q : ℚ)
  | str (s : String)
  | arr (elems : List JsVal)
  | obj (fields : List (String × JsVal))

/-- Truthiness of a JavaScript value (`if (content)`). -/
def jsTruthy : JsVal → Bool
  | JsVal.undef => false
  | JsVal.jnull => false
  | JsVal.bool b => b
  | JsVal.num q => decide (q ≠ 0)
  | JsVal.str s => decide (s ≠ "")
  | JsVal.arr _ => true
  | JsVal.obj _ => true

/-- JavaScript string coercion.  Only the string case is exercised by the
claims; numbers and arrays use a simplified rendering. -/
def jsToString : JsVal → String
  | JsVal.str s => s
  | JsVal.undef => "undefined"
  | JsVal.jnull => "null"
  | JsVal.bool true => "true"
  | JsVal.bool false => "false"
  | JsVal.num q => toString q
  | JsVal.arr _ => ""
  | JsVal.obj _ => "[object Object]"

/-- Property lookup on a non-null value.  On objects the *last* binding of
the key wins, matching how `JSON.parse` resolves duplicate keys; on every
non-object value the properties used by this module are absent, giving
`undefined`. -/
def jsMember (v : JsVal) (k : String) : JsVal :=
  match v with
  | JsVal.obj fields =>
    match fields.reverse.find? (fun p => p.1 == k) with
    | some p => p.2
    | none => JsVal.undef
  | _ => JsVal.undef

/-- Plain (non-optional) property access: throws a `TypeError` when the
base is `undefined` or `null`. -/
def jsGetProp (v : JsVal) (k : String) : Except Unit JsVal :=
  match v with
  | JsVal.undef => Except.error ()
  | JsVal.jnull => Except.error ()
  | w => Except.ok (jsMember w k)

/-- Index access `x[0]`: throws on `undefined`/`null`, returns the first
element of an array, the first character of a string, and `undefined`
otherwise. -/
def jsIndex0 (v : JsVal) : Except Unit JsVal :=
  match v with
  | JsVal.undef => Except.error ()
  | JsVal.jnull => Except.error ()
  | JsVal.arr xs => Except.ok (xs.headD JsVal.undef)
  | JsVal.obj fields => Except.ok (jsMember (JsVal.obj fields) ("0"))
  | JsVal.str s =>
    Except.ok (match s.data with
      | [] => JsVal.undef
      | c :: _ => JsVal.str (String.mk [c]))
  | _ => Except.ok JsVal.undef

/-! ## A model of `JSON.parse`

A fueled recursive-descent parser over `List Char`, following the JSON
grammar (RFC 8259): insignificant whitespace, `null`/`true`/`false`,
numbers with optional fraction and exponent and no leading zeros, strings
with the standard escapes, arrays and objects.  Fuel is structural, so
every run reduces inside the kernel. -/

def jsonWs (c : Char) : Bool :=
  c = ' ' || c = '\t' || c = '\n' || c = '\r'

def skipWs (l : List Char) : List Char := l.dropWhile jsonWs

def hexVal (c : Char) : Option Nat :=
  if '0' ≤ c ∧ c ≤ '9' then some (c.toNat - 48)
  else if 'a' ≤ c ∧ c ≤ 'f' then some (c.toNat - 87)
  else if 'A' ≤ c ∧ c ≤ 'F' then some (c.toNat - 55)
  else none

def digitsVal (l : List Char) : Nat :=
  l.foldl (fun a c => a * 10 + (c.toNat - 48)) 0

/-- Parse the body of a JSON string literal, the opening quote already
consumed.  Returns the decoded string and the input after the closing
quote. -/
def parseStrF : Nat → List Char → Option (String × List Char)
  | 0, _ => none
  | _ + 1, [] => none
  | fuel + 1, c :: rest =>
    if c = '"' then some ("", rest)
    else if c = '\\' then
      match rest with
      | [] => none
      | e :: rest2 =>
        let cont : Char → List Char → Option (String × List Char) :=
          fun ch r =>
            match parseStrF fuel r with
            | some (s, r2) => some (String.mk (ch :: s.data), r2)
            | none => none
        if e = '"' then cont '"' rest2
        else if e = '\\' then cont '\\' rest2
        else if e = '/' then cont '/' rest2
        else if e = 'b' then cont '\x08' rest2
        else if e = 'f' then cont '\x0c' rest2
        else if e = 'n' then cont '\n' rest2
        else if e = 'r' then cont '\r' rest2
        else if e = 't' then cont '\t' rest2
        else if e = 'u' then
          match rest2 with
          | h1 :: h2 :: h3 :: h4 :: rest3 =>
            match hexVal h1, hexVal h2, hexVal h3, hexVal h4 with
            | some a, some b, some c2, some d =>
              cont (Char.ofNat (((a * 16 + b) * 16 + c2) * 16 + d)) rest3
            | _, _, _, _ => none
          | _ => none
        else none
    else if c.toNat < 32 then none
    else
      match parseStrF fuel rest with
      | some (s, r2) => some (String.mk (c :: s.data), r2)
      | none => none

/-- Parse a JSON number starting at the head of the input. -/
def parseNum (s : List Char) : Option (ℚ × List Char) :=
  let signed : Bool × List Char :=
    match s with
    | '-' :: r => (true, r)
    | _ => (false, s)
  let s1 := signed.2
  let ds := s1.takeWhile Char.isDigit
  let r1 := s1.dropWhile Char.isDigit
  if ds = [] then none
  else if 1 < ds.length ∧ ds.headD 'x' = '0' then none
  else
    let base : ℚ := (digitsVal ds : ℕ)
    let fracStep : Option (ℚ × List Char) :=
      match r1 with
      | '.' :: rf =>
        let fs := rf.takeWhile Char.isDigit
        if fs = [] then none
        else some (base + (digitsVal fs : ℚ) / ((10 : ℚ) ^ fs.length),
                   rf.dropWhile Char.isDigit)
      | _ => some (base, r1)
    match fracStep with
    | none => none
    | some (q1, r2) =>
      let expStep : Option (ℚ × List Char) :=
        match r2 with
        | c :: re =>
          if c = 'e' ∨ c = 'E' then
            let signed2 : Bool × List Char :=
              match re with
              | '+' :: rr => (false, rr)
              | '-' :: rr => (true, rr)
              | _ => (false, re)
            let es := signed2.2.takeWhile Char.isDigit
            if es = [] then none
            else
              some ((if signed2.1 then q1 / (10 : ℚ) ^ digitsVal es
                     else q1 * (10 : ℚ) ^ digitsVal es),
                    signed2.2.dropWhile Char.isDigit)
          else some (q1, r2)
        | [] => some (q1, [])
      match expStep with
      | none => none
      | some (q2, r3) => some ((if signed.1 then -q2 else q2), r3)

inductive PMode where
  | value
  | arrItems
  | objFields

inductive PRes where
  | val (v : JsVal)
  | items (vs : List JsVal)
  | fields (fs : List (String × JsVal))

/-- The main JSON parsing loop.  `PMode.value` parses one value,
`PMode.arrItems` the elements after `[`, `PMode.objFields` the members
after an opening brace. -/
def parseF : Nat → PMode → List Char → Option (PRes × List Char)
  | 0, _, _ => none
  | fuel + 1, PMode.value, s =>
    match skipWs s with
    | [] => none
    | c :: rest =>
      if c = '{' then
        match skipWs rest with
        | '}' :: r2 => some (PRes.val (JsVal.obj []), r2)
        | _ =>
          match parseF fuel PMode.objFields rest with
          | some (PRes.fields fs, r2) => some (PRes.val (JsVal.obj fs), r2)
          | _ => none
      else if c = '[' then
        match skipWs rest with
        | ']' :: r2 => some (PRes.val (JsVal.arr []), r2)
        | _ =>
          match parseF fuel PMode.arrItems rest with
          | some (PRes.items vs, r2) => some (PRes.val (JsVal.arr vs), r2)
          | _ => none
      else if c = '"' then
        match parseStrF (rest.length + 1) rest with
        | some (str, r2) => some (PRes.val (JsVal.str str), r2)
        | none => none
      else if c = 't' then
        match rest with
        | 'r' :: 'u' :: 'e' :: r2 => some (PRes.val (JsVal.bool true), r2)
        | _ => none
      else if c = 'f' then
        match rest with
        | 'a' :: 'l' :: 's' :: 'e' :: r2 => some (PRes.val (JsVal.bool false), r2)
        | _ => none
      else if c = 'n' then
        match rest with
        | 'u' :: 'l' :: 'l' :: r2 => some (PRes.val JsVal.jnull, r2)
        | _ => none
      else
        match parseNum (c :: rest) with
        | some (q, r2) => some (PRes.val (JsVal.num q), r2)
        | none => none
  | fuel + 1, PMode.arrItems, s =>
    match parseF fuel PMode.value s with
    | some (PRes.val v, r) =>
      (match skipWs r with
       | ',' :: r2 =>
         match parseF fuel PMode.arrItems r2 with
         | some (PRes.items vs, r3) => some (PRes.items (v :: vs), r3)
         | _ => none
       | ']' :: r2 => some (PRes.items [v], r2)
       | _ => none)
    | _ => none
  | fuel + 1, PMode.objFields, s =>
    match skipWs s with
    | '"' :: rest =>
      match parseStrF (rest.length + 1) rest with
      | some (k, r) =>
        (match skipWs r with
         | ':' :: r2 =>
           match parseF fuel PMode.value r2 with
           | some (PRes.val v, r3) =>
             (match skipWs r3 with
              | ',' :: r4 =>
                match parseF fuel PMode.objFields r4 with
                | some (PRes.fields fs, r5) => some (PRes.fields ((k, v) :: fs), r5)
                | _ => none
              | '}' :: r4 => some (PRes.fields [(k, v)], r4)
              | _ => none)
           | _ => none
         | _ => none)
      | none => none
    | _ => none

/-- Model of `JSON.parse`: parse one value and require only whitespace to
remain; `none` models a thrown `SyntaxError`. -/
def Json.parse (l : List Char) : Option JsVal :=
  match parseF (2 * l.length + 2) PMode.value l with
  | some (PRes.val v, rest) => if skipWs rest = [] then some v else none
  | _ => none

/-! ## JavaScript string helpers used by the module -/

/-- Whitespace as removed by `String.prototype.trim`. -/
def jsWhitespace (c : Char) : Bool :=
  c = ' ' || c = '\t' || c = '\n' || c = '\r' ||
  c = '\x0b' || c = '\x0c' || c = ' ' || c = '﻿'

/-- `trim` on character lists: drop whitespace from both ends. -/
def jsTrim (l : List Char) : List Char :=
  ((l.dropWhile jsWhitespace).reverse.dropWhile jsWhitespace).reverse

def jsTrimStr (s : String) : String := String.mk (jsTrim s.data)

/-- `split('\n')`: every piece between newlines, empty pieces kept. -/
def splitLines : List Char → List (List Char)
  | [] => [[]]
  | c :: rest =>
    if c = '\n' then [] :: splitLines rest
    else
      match splitLines rest with
      | [] => [[c]]
      | h :: t => (c :: h) :: t

def jsSplitNl (s : String) : List String :=
  (splitLines s.data).map (fun l => String.mk l)

/-- Concatenation of a list of strings, in order. -/
def strJoin : List String → String
  | [] => ""
  | s :: rest => s ++ strJoin rest

/-- `needle` occurs as a contiguous substring of `hay`. -/
def containsSub (hay needle : List Char) : Bool :=
  needle.isPrefixOf hay ||
    match hay with
    | [] => false
    | _ :: t => containsSub t needle

/-! ## Data model -/

inductive Role where
  | user
  | assistant
  | system
  deriving DecidableEq

structure Message where
  role : Role
  content : String
  deriving DecidableEq

/-- The observable shape of the one outbound HTTP POST a dispatcher call
issues: URL plus the JSON body fields `model`, `messages`, `temperature`,
`stream`. -/
structure OutRequest where
  url : String
  model : String
  messages : List Message
  temperature : ℚ
  stream : Bool
  deriving DecidableEq

/-- The HTTP-level outcome the gateway produces for a non-streaming call:
`ok` is `response.ok` (2xx), `body` the text `response.json()` reads. -/
structure HttpResponse where
  ok : Bool
  status : Nat
  statusText : String
  body : String
  deriving DecidableEq

/-- Ways a dispatcher call can fail. `http` carries the message of a thrown
`Error`; `jsonParse` is a propagated `response.json()` rejection;
`typeError` a propagated `TypeError` from property access. -/
inductive ChatErr where
  | config
  | http (msg : String)
  | jsonParse
  | typeError
  | streamUnavailable
  | transport
  deriving DecidableEq

def API_URL : String := "https://openrouter.ai/api/v1/chat/completions"

/-! ## Non-streaming dispatcher (`sendChatRequest`) -/

/-- `errorData.error?.message || response.statusText` followed by string
interpolation.  Throws (`Except.error`) when `errorData` is `null`. -/
def chatErrMsg (errorData : JsVal) (statusText : String) : Except Unit String :=
  match errorData with
  | JsVal.jnull => Except.error ()
  | JsVal.undef => Except.error ()
  | ed =>
    let e := jsMember ed ("error")
    let m : JsVal :=
      match e with
      | JsVal.undef => JsVal.undef
      | JsVal.jnull => JsVal.undef
      | v => jsMember v ("message")
    Except.ok (if jsTruthy m then jsToString m else statusText)

/-- `data.choices[0]?.message.content || ''` on the parsed success body. -/
def chatContent (data : JsVal) : Except Unit String :=
  match jsGetProp data ("choices") with
  | Except.error e => Except.error e
  | Except.ok choices =>
    match jsIndex0 choices with
    | Except.error e => Except.error e
    | Except.ok first =>
      match first with
      | JsVal.undef => Except.ok ("")
      | JsVal.jnull => Except.ok ("")
      | v =>
        match jsGetProp (jsMember v ("message")) ("content") with
        | Except.error e => Except.error e
        | Except.ok content =>
          Except.ok (if jsTruthy content then jsToString content else "")

/-- `sendChatRequest`.  The first component is the list of HTTP requests
the call issues; the network's answer to the single request is the
`resp` argument. -/
def sendChatRequest (apiKey : String) (messages : List Message)
    (resp : HttpResponse) (model : String := "openai/gpt-4o")
    (temperature : ℚ := 7 / 10) :
    List OutRequest × Except ChatErr String :=
  if apiKey = "" then ([], Except.error ChatErr.config)
  else
    ([{ url := API_URL, model := model, messages := messages,
        temperature := temperature, stream := false }],
     if resp.ok = false then
       match Json.parse resp.body.data with
       | none => Except.error ChatErr.jsonParse
       | some errorData =>
         match chatErrMsg errorData resp.statusText with
         | Except.error _ => Except.error ChatErr.typeError
         | Except.ok m => Except.error (ChatErr.http ("API 请求失败: " ++ m))
     else
       match Json.parse resp.body.data with
       | none => Except.error ChatErr.jsonParse
       | some data =>
         match chatContent data with
         | Except.error _ => Except.error ChatErr.typeError
         | Except.ok s => Except.ok s)

/-! ## `generateSuggestions` -/

/-- The template literal built around the node content. -/
def suggestionPrompt (nodeContent : String) : String :=
  "\n  我正在构建一个概念地图，其中有以下内容的节点:\n  \"" ++ nodeContent ++
  "\"\n  \n  请提供5个相关概念或想法，这些概念可以与此节点相连接。简洁回答，每行一个概念，不需要额外解释。\n  "

def suggestionMessages (nodeContent : String) : List Message :=
  [{ role := Role.system,
     content := "你是一个帮助用户构建知识地图的助手，擅长关联概念和提供洞见。请保持回答简洁、有启发性。" },
   { role := Role.user, content := suggestionPrompt nodeContent }]

/-- `generateSuggestions`: forward through the non-streaming path, then
split on newlines, trim, drop empties, keep the first 5; any failure is
caught and replaced by the placeholder list. -/
def generateSuggestions (apiKey : String) (nodeContent : String)
    (resp : HttpResponse) : List String :=
  match (sendChatRequest apiKey (suggestionMessages nodeContent) resp).2 with
  | Except.error _ => ["无法生成建议，请稍后再试"]
  | Except.ok response =>
    ((((jsSplitNl response).map jsTrimStr).filter
        (fun l => decide (0 < l.length))).take 5)

/-! ## Stream decoder -/

/-- Decoder state: the line buffer plus the two observable accumulators —
`fullText` (the value returned on completion) and `emitted` (the arguments
passed to `onChunk`, in invocation order). -/
structure DecState where
  buffer : List Char
  fullText : String
  emitted : List String
  deriving DecidableEq

def initState : DecState := { buffer := [], fullText := "", emitted := [] }

/-- Split the buffer at its first newline: `buffer.indexOf('\n')`,
`buffer.slice(0, lineEnd)` and `buffer.slice(lineEnd + 1)`. -/
def splitFirstLine : List Char → Option (List Char × List Char)
  | [] => none
  | c :: rest =>
    if c = '\n' then some ([], rest)
    else
      match splitFirstLine rest with
      | none => none
      | some (a, b) => some (c :: a, b)

/-- `parsed.choices[0]?.delta?.content`. -/
def extractDelta (parsed : JsVal) : Except Unit JsVal :=
  match jsGetProp parsed ("choices") with
  | Except.error e => Except.error e
  | Except.ok choices =>
    match jsIndex0 choices with
    | Except.error e => Except.error e
    | Except.ok first =>
      match first with
      | JsVal.undef => Except.ok JsVal.undef
      | JsVal.jnull => Except.ok JsVal.undef
      | v =>
        match jsMember v ("delta") with
        | JsVal.undef => Except.ok JsVal.undef
        | JsVal.jnull => Except.ok JsVal.undef
        | d => Except.ok (jsMember d ("content"))

/-- The `try { JSON.parse … onChunk … } catch { }` body run for one drained
`data:` payload: parse failures and `TypeError`s are swallowed, a truthy
delta is emitted and appended. -/
def handleData (st : DecState) (d : List Char) : DecState :=
  match Json.parse d with
  | none => st
  | some parsed =>
    match extractDelta parsed with
    | Except.error _ => st
    | Except.ok content =>
      if jsTruthy content then
        { st with fullText := st.fullText ++ jsToString content,
                  emitted := st.emitted ++ [jsToString content] }
      else st

/-- The delta a payload would contribute, if any: `some c` exactly when the
code would invoke the callback with `c`. -/
def deltaContentOf (d : List Char) : Option String :=
  match Json.parse d with
  | none => none
  | some parsed =>
    match extractDelta parsed with
    | Except.error _ => none
    | Except.ok content =>
      if jsTruthy content then some (jsToString content) else none

/-- One `processLines()` pass, fueled (one fuel unit per drained line; each
drained line removes at least one buffer character, so
`buffer.length + 1` fuel always suffices).  The `Bool` records whether the
pass returned early through the `[DONE]` sentinel. -/
def processLinesF : Nat → DecState → DecState × Bool
  | 0, st => (st, false)
  | fuel + 1, st =>
    match splitFirstLine st.buffer with
    | none => (st, false)
    | some (rawLine, rest) =>
      let line := jsTrim rawLine
      let st1 : DecState := { st with buffer := rest }
      if line.isEmpty || !(("data: ".data).isPrefixOf line) then
        processLinesF fuel st1
      else
        let d := line.drop 6
        if d = "[DONE]".data then (st1, true)
        else processLinesF fuel (handleData st1 d)

def processLines (st : DecState) : DecState × Bool :=
  processLinesF (st.buffer.length + 1) st

/-- One `reader.read()` outcome: a decoded text chunk, or a rejection
(transport error).  End-of-source (`done`) is the end of the list. -/
inductive ReadStep where
  | chunk (s : String)
  | fail
  deriving DecidableEq

/-- The `while (true) { read; append; processLines() }` loop.  A rejected
read aborts the loop, carrying the decoder state reached so far (the
sentinel flag returned by `processLines` is discarded, exactly as in the
source, where the outer loop keeps reading after `[DONE]`). -/
def readLoop : List ReadStep → DecState → Except DecState DecState
  | [], st => Except.ok st
  | ReadStep.fail :: _, st => Except.error st
  | ReadStep.chunk s :: rest, st =>
    readLoop rest (processLines { st with buffer := st.buffer ++ s.data }).1

/-- `if (buffer.trim()) { buffer += '\n'; processLines(); }` after the read
loop ends. -/
def finalFlush (st : DecState) : DecState :=
  if jsTrim st.buffer = [] then st
  else (processLines { st with buffer := st.buffer ++ ['\n'] }).1

/-- Everything the network contributes to one streaming call: the HTTP
status line, the error body `response.json()` would read on non-2xx,
whether `response.body` is readable, and the sequence of reads. -/
structure StreamNet where
  ok : Bool
  status : Nat
  statusText : String
  errBody : String
  bodyReadable : Bool
  reads : List ReadStep
  deriving DecidableEq

inductive StreamTryErr where
  | jsonThrow
  | typeErrThrow
  | errorThrow (msg : String)

/-- The inner `try` block of the streaming non-2xx handler.  Every branch
throws: either `response.json()` rejects, or the property access throws,
or the explicit `throw new Error(…message…)` fires — so the block never
produces a value. -/
def streamNonOkTryBlock (net : StreamNet) : Except StreamTryErr Empty :=
  match Json.parse net.errBody.data with
  | none => Except.error StreamTryErr.jsonThrow
  | some errorData =>
    match chatErrMsg errorData net.statusText with
    | Except.error _ => Except.error StreamTryErr.typeErrThrow
    | Except.ok m => Except.error (StreamTryErr.errorThrow ("API 请求失败: " ++ m))

/-- The message of the error `sendStreamingChatRequest` throws on a non-2xx
response: whatever the `try` block threw is caught and replaced by the
status-line message. -/
def streamNonOkError (net : StreamNet) : String :=
  match streamNonOkTryBlock net with
  | Except.ok e => e.elim
  | Except.error _ =>
    "API 请求失败: " ++ toString net.status ++ " " ++ net.statusText

/-- The streaming call after the request has been issued: classify the
response, then run the decoder.  On success the observable outcome is the
returned full text together with the callback trace. -/
def streamCore (net : StreamNet) : Except ChatErr (String × List String) :=
  if net.ok = false then Except.error (ChatErr.http (streamNonOkError net))
  else if net.bodyReadable = false then Except.error ChatErr.streamUnavailable
  else
    match readLoop net.reads initState with
    | Except.error _ => Except.error ChatErr.transport
    | Except.ok st =>
      Except.ok ((finalFlush st).fullText, (finalFlush st).emitted)

/-- `sendStreamingChatRequest`, with the issued requests made explicit. -/
def sendStreamingChatRequest (apiKey : String) (messages : List Message)
    (net : StreamNet) (model : String := "google/gemini-2.0-flash-lite-001")
    (temperature : ℚ := 7 / 10) :
    List OutRequest × Except ChatErr (String × List String) :=
  if apiKey = "" then ([], Except.error ChatErr.config)
  else
    ([{ url := API_URL, model := model, messages := messages,
        temperature := temperature, stream := true }],
     streamCore net)

/-- Observable events of one streaming read loop, used to state the
resource guarantee: callback invocations, the `finally` release of the
reader, and the terminal outcome. -/
inductive StreamEv where
  | emit (s : String)
  | cancel
  | retOk (full : String)
  | retErr
  deriving DecidableEq

/-- The event trace of the `try … finally { reader.cancel() }` region:
whichever way the loop ends, the `finally` clause cancels the reader
before the value is returned or the error is rethrown. -/
def streamLoopTrace (reads : List ReadStep) : List StreamEv :=
  match readLoop reads initState with
  | Except.ok st =>
    let st2 := finalFlush st
    (st2.emitted.map StreamEv.emit) ++ [StreamEv.cancel, StreamEv.retOk st2.fullText]
  | Except.error st =>
    (st.emitted.map StreamEv.emit) ++ [StreamEv.cancel, StreamEv.retErr]

/-! ## Concrete scenario inputs -/

/-- A well-formed delta-bearing frame carrying `s`, without the trailing
newline. -/
def deltaFrame (s : String) : String :=
  "data: \x7b\"choices\":[\x7b\"delta\":\x7b\"content\":\"" ++ s ++ "\"\x7d\x7d]\x7d"

/-- The spec scenario: two chunks carrying the deltas `Hel` and `lo`, the
second also carrying the sentinel. -/
def scenarioNet : StreamNet :=
  { ok := true, status := 200, statusText := "OK", errBody := "",
    bodyReadable := true,
    reads := [ReadStep.chunk (deltaFrame ("Hel") ++ "\n"),
              ReadStep.chunk (deltaFrame ("lo") ++ "\n" ++ "data: [DONE]\n")] }

/-- One chunk holding the sentinel first and a delta-bearing frame after
it. -/
def netC2 : StreamNet :=
  { ok := true, status := 200, statusText := "OK", errBody := "",
    bodyReadable := true,
    reads := [ReadStep.chunk ("data: [DONE]\n" ++ deltaFrame ("X") ++ "\n")] }

/-- A malformed frame between two well-formed ones. -/
def netC4 : StreamNet :=
  { ok := true, status := 200, statusText := "OK", errBody := "",
    bodyReadable := true,
    reads := [ReadStep.chunk (deltaFrame ("A") ++ "\n" ++ "data: oops\n" ++
                              deltaFrame ("B") ++ "\n")] }

/-- A single final frame with no trailing newline. -/
def net5 : StreamNet :=
  { ok := true, status := 200, statusText := "OK", errBody := "",
    bodyReadable := true,
    reads := [ReadStep.chunk (deltaFrame ("end"))] }

def err401Body : String := "\x7b\"error\":\x7b\"message\":\"invalid key\"\x7d\x7d"

/-- A 401 response with a structured error body, streaming side. -/
def net401 : StreamNet :=
  { ok := false, status := 401, statusText := "Unauthorized",
    errBody := err401Body, bodyReadable := true, reads := [] }

/-- The same 401 response, non-streaming side. -/
def resp401 : HttpResponse :=
  { ok := false, status := 401, statusText := "Unauthorized", body := err401Body }

/-- A successful non-streaming response whose content is two suggestion
lines. -/
def respC8 : HttpResponse :=
  { ok := true, status := 200, statusText := "OK",
    body := "\x7b\"choices\":[\x7b\"message\":\x7b\"content\":\"a\\nb\"\x7d\x7d]\x7d" }

/-- A successful response with an empty `choices` array, whose extracted
content is the empty string. -/
def resp10 : HttpResponse :=
  { ok := true, status := 200, statusText := "OK",
    body := "\x7b\"choices\":[]\x7d" }

/-- The decoder invariant: the full-text accumulator always equals the
concatenation of the deltas emitted so far. -/
def decInv (st : DecState) : Prop := st.fullText = strJoin st.emitted

/-! ## Helper lemmas -/

theorem processLinesF_succ (n : Nat) (st : DecState) :
    processLinesF (n + 1) st =
      match splitFirstLine st.buffer with
      | none => (st, false)
      | some (rawLine, rest) =>
        let line := jsTrim rawLine
        let st1 : DecState := { st with buffer := rest }
        if line.isEmpty || !(("data: ".data).isPrefixOf line) then
          processLinesF n st1
        else if line.drop 6 = "[DONE]".data then (st1, true)
        else processLinesF n (handleData st1 (line.drop 6)) := rfl

theorem strJoin_snoc (l : List String) (s : String) :
    strJoin (l ++ [s]) = strJoin l ++ s := by
  induction l with
  | nil => simp [strJoin, String.empty_append, String.append_empty]
  | cons a t ih => simp [strJoin, ih, String.append_assoc]

theorem splitFirstLine_of_not_mem : ∀ (l : List Char),
    ('\n' ∈ l → False) → splitFirstLine l = none := by
  intro l
  induction l with
  | nil => intro _; rfl
  | cons c rest ih =>
    intro h
    have hc : ¬ c = '\n' := fun he => h (he ▸ List.mem_cons_self c rest)
    simp only [splitFirstLine, if_neg hc]
    rw [ih (fun hm => h (List.mem_cons_of_mem c hm))]

theorem not_mem_of_splitFirstLine : ∀ (l : List Char),
    splitFirstLine l = none → ('\n' ∈ l → False) := by
  intro l
  induction l with
  | nil => intro _ hm; cases hm
  | cons c rest ih =>
    intro h hm
    by_cases hc : c = '\n'
    · subst hc; simp [splitFirstLine] at h
    · simp only [splitFirstLine, if_neg hc] at h
      cases hs : splitFirstLine rest with
      | none =>
        rcases List.mem_cons.mp hm with h1 | h2
        · exact hc h1.symm
        · exact ih hs h2
      | some p =>
        cases p with
        | mk a b =>
          rw [hs] at h
          simp at h

theorem splitFirstLine_length : ∀ (l a b : List Char),
    splitFirstLine l = some (a, b) → b.length < l.length := by
  intro l
  induction l with
  | nil => intro a b h; exact Option.noConfusion h
  | cons c rest ih =>
    intro a b h
    by_cases hc : c = '\n'
    · subst hc
      simp [splitFirstLine] at h
      rw [← h.2]
      simp only [List.length_cons]
      omega
    · simp only [splitFirstLine, if_neg hc] at h
      cases hs : splitFirstLine rest with
      | none => rw [hs] at h; simp at h
      | some p =>
        cases p with
        | mk a2 b2 =>
          rw [hs] at h
          simp at h
          rw [← h.2]
          have hlt := ih a2 b2 hs
          simp only [List.length_cons]
          omega

theorem splitFirstLine_prepend : ∀ (a r : List Char), ('\n' ∈ a → False) →
    splitFirstLine (a ++ '\n' :: r) = some (a, r) := by
  intro a
  induction a with
  | nil => intro r _; simp [splitFirstLine]
  | cons c t ih =>
    intro r h
    have hc : ¬ c = '\n' := fun he => h (he ▸ List.mem_cons_self c t)
    simp only [List.cons_append, splitFirstLine, if_neg hc, List.append_eq]
    rw [ih r (fun hm => h (List.mem_cons_of_mem c hm))]

theorem handleData_eq_delta (st : DecState) (d : List Char) :
    handleData st d =
      match deltaContentOf d with
      | some c => { st with fullText := st.fullText ++ c,
                            emitted := st.emitted ++ [c] }
      | none => st := by
  cases h1 : Json.parse d with
  | none => simp [handleData, deltaContentOf, h1]
  | some parsed =>
    cases h2 : extractDelta parsed with
    | error e => simp [handleData, deltaContentOf, h1, h2]
    | ok content =>
      by_cases h3 : jsTruthy content = true
      · simp [handleData, deltaContentOf, h1, h2, h3]
      · simp [handleData, deltaContentOf, h1, h2, h3]

theorem handleData_some (st : DecState) (d : List Char) (c : String)
    (h : deltaContentOf d = some c) :
    handleData st d = { st with fullText := st.fullText ++ c,
                                emitted := st.emitted ++ [c] } := by
  rw [handleData_eq_delta, h]

theorem handleData_none (st : DecState) (d : List Char)
    (h : deltaContentOf d = none) : handleData st d = st := by
  rw [handleData_eq_delta, h]

theorem handleData_buffer (st : DecState) (d : List Char) :
    (handleData st d).buffer = st.buffer := by
  rw [handleData_eq_delta]
  cases deltaContentOf d with
  | none => rfl
  | some c => rfl

theorem handleData_decInv (st : DecState) (d : List Char) (h : decInv st) :
    decInv (handleData st d) := by
  rw [handleData_eq_delta]
  cases hd : deltaContentOf d with
  | none => exact h
  | some c =>
    show st.fullText ++ c = strJoin (st.emitted ++ [c])
    rw [strJoin_snoc, h]

theorem processLinesF_decInv : ∀ (fuel : Nat) (st : DecState), decInv st →
    decInv (processLinesF fuel st).1 := by
  intro fuel
  induction fuel with
  | zero => intro st h; exact h
  | succ n ih =>
    intro st h
    rw [processLinesF_succ]
    cases hs : splitFirstLine st.buffer with
    | none => exact h
    | some p =>
      cases p with
      | mk rawLine rest =>
        dsimp only
        by_cases hskip :
            ((jsTrim rawLine).isEmpty ||
              !(("data: ".data).isPrefixOf (jsTrim rawLine))) = true
        · rw [if_pos hskip]
          exact ih _ h
        · rw [if_neg (by simp [hskip])]
          by_cases hd : (jsTrim rawLine).drop 6 = "[DONE]".data
          · rw [if_pos hd]
            exact h
          · rw [if_neg hd]
            exact ih _ (handleData_decInv _ _ h)

theorem readLoop_decInv : ∀ (reads : List ReadStep) (st : DecState), decInv st →
    (∀ st2, readLoop reads st = Except.ok st2 → decInv st2) ∧
    (∀ st2, readLoop reads st = Except.error st2 → decInv st2) := by
  intro reads
  induction reads with
  | nil =>
    intro st h
    constructor
    · intro st2 he
      cases he
      exact h
    · intro st2 he
      cases he
  | cons r rest ih =>
    intro st h
    cases r with
    | fail =>
      constructor
      · intro st2 he; cases he
      · intro st2 he; cases he; exact h
    | chunk s =>
      simp only [readLoop]
      exact ih _ (processLinesF_decInv _ _ h)

theorem finalFlush_decInv (st : DecState) (h : decInv st) :
    decInv (finalFlush st) := by
  rw [finalFlush]
  by_cases hb : jsTrim st.buffer = []
  · rw [if_pos hb]; exact h
  · rw [if_neg hb]
    exact processLinesF_decInv _ _ h

theorem processLinesF_no_newline : ∀ (fuel : Nat) (st st2 : DecState),
    st.buffer.length < fuel → processLinesF fuel st = (st2, false) →
    ('\n' ∈ st2.buffer → False) := by
  intro fuel
  induction fuel with
  | zero => intro st st2 hlt; exact absurd hlt (Nat.not_lt_zero _)
  | succ n ih =>
    intro st st2 hlt hp
    rw [processLinesF_succ] at hp
    cases hs : splitFirstLine st.buffer with
    | none =>
      rw [hs] at hp
      have hst : st = st2 := congrArg Prod.fst hp
      rw [← hst]
      exact not_mem_of_splitFirstLine _ hs
    | some p =>
      cases p with
      | mk rawLine rest =>
        rw [hs] at hp
        dsimp only at hp
        have hr : rest.length < n := by
          have := splitFirstLine_length st.buffer rawLine rest hs
          omega
        by_cases hskip :
            ((jsTrim rawLine).isEmpty ||
              !(("data: ".data).isPrefixOf (jsTrim rawLine))) = true
        · rw [if_pos hskip] at hp
          exact ih _ _ hr hp
        · rw [if_neg (by simp [hskip])] at hp
          by_cases hd : (jsTrim rawLine).drop 6 = "[DONE]".data
          · rw [if_pos hd] at hp
            simp at hp
          · rw [if_neg hd] at hp
            apply ih _ _ _ hp
            rw [handleData_buffer]
            exact hr

theorem processLinesF_sentinel (fuel : Nat) (st : DecState) (rest : List Char)
    (h : st.buffer = ("data: [DONE]").data ++ '\n' :: rest) :
    processLinesF (fuel + 1) st = ({ st with buffer := rest }, true) := by
  have hs : splitFirstLine st.buffer = some (("data: [DONE]").data, rest) := by
    rw [h]
    exact splitFirstLine_prepend _ _ (by decide)
  rw [processLinesF_succ, hs]
  dsimp only
  rw [if_neg (by decide), if_pos (by decide)]

theorem processLinesF_nil_buffer (fuel : Nat) (st : DecState)
    (h : st.buffer = []) : processLinesF fuel st = (st, false) := by
  cases fuel with
  | zero => rfl
  | succ n =>
    rw [processLinesF_succ, h]
    rfl

theorem splitLines_ne_nil : ∀ (l : List Char), splitLines l ≠ [] := by
  intro l
  cases l with
  | nil => simp [splitLines]
  | cons c rest =>
    simp only [splitLines]
    by_cases hc : c = '\n'
    · simp [hc]
    · rw [if_neg hc]
      cases h : splitLines rest with
      | nil => simp
      | cons h0 t0 => simp

theorem mem_of_mem_splitLines : ∀ (l p : List Char), p ∈ splitLines l →
    ∀ c, c ∈ p → c ∈ l := by
  intro l
  induction l with
  | nil =>
    intro p hp c hc
    simp [splitLines] at hp
    subst hp
    cases hc
  | cons a t ih =>
    intro p hp c hc
    by_cases ha : a = '\n'
    · subst ha
      simp only [splitLines, if_pos rfl] at hp
      rcases List.mem_cons.mp hp with h1 | h2
      · subst h1; cases hc
      · exact List.mem_cons_of_mem _ (ih p h2 c hc)
    · simp only [splitLines, if_neg ha] at hp
      cases hs : splitLines t with
      | nil => exact absurd hs (splitLines_ne_nil t)
      | cons h0 t0 =>
        rw [hs] at hp
        rcases List.mem_cons.mp hp with h1 | h2
        · subst h1
          rcases List.mem_cons.mp hc with h3 | h4
          · subst h3; exact List.mem_cons_self _ _
          · refine List.mem_cons_of_mem _ (ih h0 ?_ c h4)
            rw [hs]
            exact List.mem_cons_self _ _
        · refine List.mem_cons_of_mem _ (ih p ?_ c hc)
          rw [hs]
          exact List.mem_cons_of_mem _ h2

theorem jsTrim_allWs (l : List Char) (h : ∀ c ∈ l, jsWhitespace c = true) :
    jsTrim l = [] := by
  unfold jsTrim
  rw [List.dropWhile_eq_nil_iff.mpr h]
  rfl

/-! ## Claim theorems -/

/-- C7: if no API credential is configured (empty key), both dispatchers
fail with the configuration error and issue no HTTP request (the request
list is empty), regardless of what the network would have answered. -/
theorem missing_key_no_request :
    ∀ (msgs : List Message) (resp : HttpResponse) (net : StreamNet)
      (m1 m2 : String) (t1 t2 : ℚ),
      sendChatRequest ("") msgs resp m1 t1 = ([], Except.error ChatErr.config) ∧
      sendStreamingChatRequest ("") msgs net m2 t2 =
        ([], Except.error ChatErr.config) := by
  intro msgs resp net m1 m2 t1 t2
  constructor
  · rw [sendChatRequest, if_pos rfl]
  · rw [sendStreamingChatRequest, if_pos rfl]

/-- C2 counterexample: a delta-bearing line buffered after the `[DONE]`
sentinel in the same chunk is still parsed and delivered — the callback
fires with `X` after the sentinel was seen, refuting that stream
processing terminates immediately. -/
theorem sentinel_leftover_delivered_cex :
    (sendStreamingChatRequest ("key") [] netC2).2 =
      Except.ok (("X"), ["X"]) := rfl

/-- C2 amended: the sentinel terminates only the current line-draining
pass: the pass returns immediately, leaving every line after the sentinel
untouched in the buffer (later passes may still deliver them). -/
theorem sentinel_stops_current_pass (st : DecState) (rest : List Char)
    (h : st.buffer = ("data: [DONE]").data ++ '\n' :: rest) :
    processLines st = ({ st with buffer := rest }, true) :=
  processLinesF_sentinel st.buffer.length st rest h

theorem sentinel_stops_current_pass_witness :
    processLines { buffer := ("data: [DONE]\nx").data, fullText := "",
                   emitted := [] } =
      ({ buffer := ("x").data, fullText := "", emitted := [] }, true) :=
  sentinel_stops_current_pass
    { buffer := ("data: [DONE]\nx").data, fullText := "", emitted := [] }
    (("x").data) (by rfl)

/-- C6 counterexample: after a line-draining pass cut short by the
sentinel, the buffer still contains a newline — a complete line remains
buffered, refuting the claimed invariant. -/
theorem buffer_newline_after_pass_cex :
    '\n' ∈ (processLines { buffer := ("data: [DONE]\nx\n").data,
                           fullText := "", emitted := [] }).1.buffer := by
  decide

/-- C6 amended: after every line-draining pass that completes without
encountering the sentinel, the buffer contains no newline character, i.e.
it holds at most one incomplete frame. -/
theorem buffer_no_newline_when_pass_completes (st st2 : DecState)
    (h : processLines st = (st2, false)) : '\n' ∈ st2.buffer → False :=
  processLinesF_no_newline (st.buffer.length + 1) st st2
    (Nat.lt_succ_self _) h

theorem buffer_no_newline_when_pass_completes_witness :
    ('\n' ∈ (DecState.mk (("cd").data) ("") []).buffer) = False :=
  eq_false
    (buffer_no_newline_when_pass_completes
      (DecState.mk (("ab\ncd").data) ("") [])
      (DecState.mk (("cd").data) ("") []) (by rfl))

/-- C4: a drained payload that is not valid JSON, or whose JSON lacks the
expected shape (property access throws, or the delta resolves to
`undefined`), changes nothing — no callback, no text, no abort — and in
the concrete run a malformed frame sits between two well-formed frames
that are both delivered. -/
theorem malformed_frame_skipped :
    (∀ (st : DecState) (d : List Char),
       Json.parse d = none → handleData st d = st) ∧
    (∀ (st : DecState) (d : List Char) (j : JsVal), Json.parse d = some j →
       extractDelta j = Except.error () → handleData st d = st) ∧
    (∀ (st : DecState) (d : List Char) (j : JsVal), Json.parse d = some j →
       extractDelta j = Except.ok JsVal.undef → handleData st d = st) ∧
    (sendStreamingChatRequest ("key") [] netC4).2 =
      Except.ok (("AB"), ["A", "B"]) := by
  refine ⟨?_, ?_, ?_, rfl⟩
  · intro st d h
    rw [handleData_eq_delta, deltaContentOf, h]
  · intro st d j h1 h2
    rw [handleData_eq_delta]
    simp [deltaContentOf, h1, h2]
  · intro st d j h1 h2
    rw [handleData_eq_delta]
    simp [deltaContentOf, h1, h2, jsTruthy]

theorem malformed_frame_skipped_witness :
    handleData initState (("oops").data) = initState ∧
    handleData initState (("\x7b\"x\":true\x7d").data) = initState ∧
    handleData initState (("\x7b\"choices\":[]\x7d").data) = initState :=
  ⟨malformed_frame_skipped.1 initState (("oops").data) (by rfl),
   malformed_frame_skipped.2.1 initState (("\x7b\"x\":true\x7d").data)
     (JsVal.obj [("x", JsVal.bool true)]) (by rfl) (by rfl),
   malformed_frame_skipped.2.2.1 initState (("\x7b\"choices\":[]\x7d").data)
     (JsVal.obj [("choices", JsVal.arr [])]) (by rfl) (by rfl)⟩

/-- C9: whichever way the streaming read loop ends — exhaustion of the
source followed by the final flush, or a read rejection — the event trace
consists of the callback emissions, then the reader cancellation, then the
terminal outcome: the byte source is released on every exit path, before
the value is returned or the error is propagated. -/
theorem reader_cancelled_on_every_exit :
    ∀ (reads : List ReadStep), ∃ (pre : List StreamEv),
      (∀ e ∈ pre, ∃ s, e = StreamEv.emit s) ∧
      ((∃ full, streamLoopTrace reads =
          pre ++ [StreamEv.cancel, StreamEv.retOk full]) ∨
        streamLoopTrace reads = pre ++ [StreamEv.cancel, StreamEv.retErr]) := by
  intro reads
  rw [streamLoopTrace]
  cases hr : readLoop reads initState with
  | ok st =>
    refine ⟨(finalFlush st).emitted.map StreamEv.emit, ?_,
            Or.inl ⟨(finalFlush st).fullText, rfl⟩⟩
    intro e he
    rcases List.mem_map.mp he with ⟨s, _, hs⟩
    exact ⟨s, hs.symm⟩
  | error st =>
    refine ⟨st.emitted.map StreamEv.emit, ?_, Or.inr rfl⟩
    intro e he
    rcases List.mem_map.mp he with ⟨s, _, hs⟩
    exact ⟨s, hs.symm⟩

theorem streamNonOkError_eq (net : StreamNet) :
    streamNonOkError net =
      "API 请求失败: " ++ toString net.status ++ " " ++ net.statusText := by
  rw [streamNonOkError]
  cases hb : streamNonOkTryBlock net with
  | ok e => exact e.elim
  | error e => rfl

/-- C3 (code bug): on every non-2xx streaming response the thrown message
is built from the HTTP status line — the `throw` carrying the structured
body message is caught by its own `catch` block, so for the 401 response
with body carrying `invalid key` the streaming dispatcher's message does
not contain `invalid key`; only the non-streaming dispatcher surfaces
it. -/
theorem streaming_nonOk_status_line_only :
    (∀ (net : StreamNet), net.ok = false →
       (sendStreamingChatRequest ("key") [] net).2 =
         Except.error (ChatErr.http
           ("API 请求失败: " ++ toString net.status ++ " " ++ net.statusText))) ∧
    (sendStreamingChatRequest ("key") [] net401).2 =
      Except.error (ChatErr.http ("API 请求失败: 401 Unauthorized")) ∧
    containsSub ("API 请求失败: 401 Unauthorized").data ("invalid key").data
      = false ∧
    (sendChatRequest ("key") [] resp401).2 =
      Except.error (ChatErr.http ("API 请求失败: invalid key")) := by
  refine ⟨?_, rfl, by decide, rfl⟩
  intro net ho
  rw [sendStreamingChatRequest, if_neg (by decide)]
  show streamCore net = _
  rw [streamCore, if_pos ho, streamNonOkError_eq]

theorem streaming_nonOk_status_line_only_witness :
    (sendStreamingChatRequest ("key") [] net401).2 =
      Except.error (ChatErr.http
        ("API 请求失败: " ++ toString (401 : Nat) ++ " " ++ "Unauthorized")) :=
  streaming_nonOk_status_line_only.1 net401 (by rfl)

/-- C1: for every streaming call that completes successfully, the returned
full text equals the concatenation, in invocation order, of the deltas
passed to the callback; and on the spec's two-chunk scenario the callback
receives `Hel` then `lo` and the call returns `Hello`. -/
theorem fullText_eq_concat_of_emitted :
    (∀ (apiKey : String) (messages : List Message) (net : StreamNet)
       (model : String) (temperature : ℚ) (reqs : List OutRequest)
       (full : String) (emitted : List String),
       sendStreamingChatRequest apiKey messages net model temperature =
         (reqs, Except.ok (full, emitted)) → full = strJoin emitted) ∧
    (sendStreamingChatRequest ("k") [] scenarioNet).2 =
      Except.ok (("Hello"), ["Hel", "lo"]) := by
  constructor
  · intro apiKey messages net model temperature reqs full emitted h
    by_cases hk : apiKey = ""
    · rw [sendStreamingChatRequest, if_pos hk, Prod.mk.injEq] at h
      exact absurd h.2 (by simp)
    · rw [sendStreamingChatRequest, if_neg hk, Prod.mk.injEq] at h
      have h2 := h.2
      rw [streamCore] at h2
      by_cases ho : net.ok = false
      · rw [if_pos ho] at h2
        exact absurd h2 (by simp)
      · rw [if_neg ho] at h2
        by_cases hb : net.bodyReadable = false
        · rw [if_pos hb] at h2
          exact absurd h2 (by simp)
        · rw [if_neg hb] at h2
          cases hr : readLoop net.reads initState with
          | error st =>
            rw [hr] at h2
            exact absurd h2 (by simp)
          | ok st =>
            rw [hr] at h2
            have hinv : decInv (finalFlush st) :=
              finalFlush_decInv st
                ((readLoop_decInv net.reads initState rfl).1 st hr)
            have h3 : ((finalFlush st).fullText, (finalFlush st).emitted) =
                (full, emitted) := by
              exact Except.ok.inj h2
            rw [Prod.mk.injEq] at h3
            rw [← h3.1, ← h3.2]
            exact hinv
  · rfl

theorem fullText_eq_concat_of_emitted_witness :
    ("Hello") = strJoin ["Hel", "lo"] :=
  fullText_eq_concat_of_emitted.1 ("k") [] scenarioNet
    ("google/gemini-2.0-flash-lite-001") (7 / 10)
    [{ url := API_URL, model := "google/gemini-2.0-flash-lite-001",
       messages := [], temperature := 7 / 10, stream := true }]
    ("Hello") ["Hel", "lo"] (by rfl)

/-- C8: `generateSuggestions` returns the non-streaming response split on
newlines, each line trimmed, empty lines dropped, truncated to 5; on any
failing dispatch — in particular a missing credential — it returns exactly
the single-element placeholder list (the function is total: no exception
escapes). -/
theorem generateSuggestions_pipeline_and_placeholder :
    (∀ (apiKey nodeContent : String) (resp : HttpResponse) (s : String),
       (sendChatRequest apiKey (suggestionMessages nodeContent) resp).2 =
           Except.ok s →
       generateSuggestions apiKey nodeContent resp =
         ((((jsSplitNl s).map jsTrimStr).filter
             (fun l => decide (0 < l.length))).take 5)) ∧
    (∀ (apiKey nodeContent : String) (resp : HttpResponse) (e : ChatErr),
       (sendChatRequest apiKey (suggestionMessages nodeContent) resp).2 =
           Except.error e →
       generateSuggestions apiKey nodeContent resp = ["无法生成建议，请稍后再试"]) ∧
    (∀ (nodeContent : String) (resp : HttpResponse),
       generateSuggestions ("") nodeContent resp = ["无法生成建议，请稍后再试"]) := by
  refine ⟨?_, ?_, ?_⟩
  · intro k node resp s h
    rw [generateSuggestions, h]
  · intro k node resp e h
    rw [generateSuggestions, h]
  · intro node resp
    rw [generateSuggestions,
        show (sendChatRequest ("") (suggestionMessages node) resp).2 =
            Except.error ChatErr.config from by
          rw [sendChatRequest, if_pos rfl]]

theorem generateSuggestions_pipeline_and_placeholder_witness :
    generateSuggestions ("key") ("n") respC8 = ["a", "b"] ∧
    generateSuggestions ("key") ("n") resp401 = ["无法生成建议，请稍后再试"] := by
  constructor
  · rw [generateSuggestions_pipeline_and_placeholder.1 ("key") ("n") respC8
        ("a\nb") (by rfl)]
    rfl
  · exact generateSuggestions_pipeline_and_placeholder.2.1 ("key") ("n")
      resp401 (ChatErr.http ("API 请求失败: invalid key")) (by rfl)

/-- C10: when the non-streaming dispatch succeeds and the response text
consists only of whitespace (including the empty string), every split line
trims to empty and is filtered out, so `generateSuggestions` returns the
empty list — not the placeholder. -/
theorem generateSuggestions_empty_on_blank_response
    (apiKey nodeContent : String) (resp : HttpResponse) (s : String)
    (h : (sendChatRequest apiKey (suggestionMessages nodeContent) resp).2 =
        Except.ok s)
    (hws : ∀ c ∈ s.data, jsWhitespace c = true) :
    generateSuggestions apiKey nodeContent resp = [] := by
  have hred : generateSuggestions apiKey nodeContent resp =
      ((((jsSplitNl s).map jsTrimStr).filter
          (fun l => decide (0 < l.length))).take 5) := by
    rw [generateSuggestions, h]
  have hfil : (((jsSplitNl s).map jsTrimStr).filter
      (fun l => decide (0 < l.length))) = [] := by
    rw [List.filter_eq_nil_iff]
    intro a ha
    rcases List.mem_map.mp ha with ⟨t, ht, hat⟩
    rw [jsSplitNl] at ht
    rcases List.mem_map.mp ht with ⟨p, hp, htp⟩
    have hall : ∀ c ∈ p, jsWhitespace c = true :=
      fun c hc => hws c (mem_of_mem_splitLines s.data p hp c hc)
    have htr : jsTrim p = [] := jsTrim_allWs p hall
    rw [← hat, ← htp]
    simp [jsTrimStr, htr, String.length]
  rw [hred, hfil]
  rfl

theorem generateSuggestions_empty_on_blank_response_witness :
    generateSuggestions ("key") ("n") resp10 = [] :=
  generateSuggestions_empty_on_blank_response ("key") ("n") resp10 ("")
    (by rfl) (by decide)

/-- C5: when the source is exhausted leaving a non-empty unterminated
`data:` frame in the buffer, the synthetic-newline flush parses it, the
delta is delivered as one last callback invocation, and it is included in
the returned full text. -/
theorem final_unterminated_frame_delivered
    (apiKey : String) (messages : List Message) (net : StreamNet)
    (st : DecState) (c : String)
    (hk : apiKey = "" → False)
    (hok : net.ok = true) (hrd : net.bodyReadable = true)
    (hloop : readLoop net.reads initState = Except.ok st)
    (hnl : '\n' ∈ st.buffer → False)
    (htrim : jsTrim st.buffer = st.buffer)
    (hne : st.buffer = [] → False)
    (hpre : (("data: ").data).isPrefixOf st.buffer = true)
    (hnd : st.buffer.drop 6 = ("[DONE]").data → False)
    (hc : deltaContentOf (st.buffer.drop 6) = some c) :
    (sendStreamingChatRequest apiKey messages net).2 =
      Except.ok (st.fullText ++ c, st.emitted ++ [c]) := by
  have hff : finalFlush st =
      { buffer := [], fullText := st.fullText ++ c,
        emitted := st.emitted ++ [c] } := by
    have hcond : ¬ (jsTrim st.buffer = []) :=
      fun h0 => hne (htrim.symm.trans h0)
    rw [finalFlush, if_neg hcond, processLines]
    dsimp only
    rw [processLinesF_succ, splitFirstLine_prepend st.buffer [] hnl]
    dsimp only
    rw [htrim]
    have hemp : st.buffer.isEmpty = false := by
      cases hb2 : st.buffer with
      | nil => exact absurd hb2 hne
      | cons x xs => rfl
    rw [hemp, hpre]
    rw [if_neg (by decide), if_neg hnd,
        handleData_some _ _ c hc]
    dsimp only
    rw [processLinesF_nil_buffer _ _ rfl]
  rw [sendStreamingChatRequest, if_neg hk]
  show streamCore net = _
  rw [streamCore, if_neg (by simp [hok]), if_neg (by simp [hrd]), hloop]
  show Except.ok ((finalFlush st).fullText, (finalFlush st).emitted) = _
  rw [hff]

theorem final_unterminated_frame_delivered_witness :
    (sendStreamingChatRequest ("key") [] net5).2 =
      Except.ok (("end"), ["end"]) :=
  final_unterminated_frame_delivered ("key") [] net5
    { buffer := (deltaFrame ("end")).data, fullText := "", emitted := [] }
    ("end") (by decide) (by rfl) (by rfl) (by rfl) (by decide) (by decide)
    (by decide) (by decide) (by decide) (by rfl)
